import Mathlib

/-!
Verification of the proctoring core of the proctorai repository.

The definitions below are a shallow embedding of the violation-inference,
scoring and session-lifecycle code found in src/hooks/useProctoring.ts and
of the object-detection filter of src/lib/detection.ts.  JavaScript Map
objects are modelled as association lists in insertion order (Map.set
replaces the first matching entry in place or appends a fresh one, Map.get
returns the first matching entry, Map.delete removes it), timestamps are
integers in milliseconds as produced by Date.now(), and detection
confidences (floats in 0..1 used only inside human-readable descriptions)
are represented as integer percentages.
-/

namespace Proctoring

/-- Severity levels of a violation event, from the severity union type of
the ViolationEvent interface in types/proctoring.ts. -/
inductive Severity where
  | low
  | medium
  | high
  | critical
deriving DecidableEq, Repr, Fintype

/-- The closed ViolationType enumeration from types/proctoring.ts. -/
inductive ViolationType where
  | FACE_NOT_VISIBLE
  | LOOKING_AWAY
  | MULTIPLE_FACES
  | PHONE_DETECTED
  | BOOK_DETECTED
  | DEVICE_DETECTED
  | CANDIDATE_ABSENT
deriving DecidableEq, Repr, Fintype

/-- The severityRank table used inside calculateIntegrityScore
(low 1, medium 2, high 3, critical 4). -/
def severityRank : Severity → Nat
  | .low => 1
  | .medium => 2
  | .high => 3
  | .critical => 4

/-- The per-severity deduction table of calculateIntegrityScore
(low 2, medium 5, high 10, critical 20). -/
def deduction : Severity → Nat
  | .low => 2
  | .medium => 5
  | .high => 10
  | .critical => 20

/-- A ViolationEvent record, from types/proctoring.ts.  Timestamps are
milliseconds since the epoch. -/
structure ViolationEvent where
  id : String
  type : ViolationType
  timestamp : Int
  description : String
  severity : Severity
  duration : Option Int := none
deriving DecidableEq, Repr

/-- Lookup in a JavaScript-style Map modelled as an association list:
Map.get returns the value of the first entry with the given key. -/
def alistLookup {κ ν : Type} [DecidableEq κ] : List (κ × ν) → κ → Option ν
  | [], _ => none
  | (k', v) :: rest, k => if k' = k then some v else alistLookup rest k

/-- Map.set: replace the value of the first entry with the given key in
place, or append a new entry at the end when the key is absent. -/
def alistSet {κ ν : Type} [DecidableEq κ] : List (κ × ν) → κ → ν → List (κ × ν)
  | [], k, v => [(k, v)]
  | (k', v') :: rest, k, v =>
    if k' = k then (k, v) :: rest else (k', v') :: alistSet rest k v

/-- Map.delete: remove the first entry with the given key. -/
def alistErase {κ ν : Type} [DecidableEq κ] : List (κ × ν) → κ → List (κ × ν)
  | [], _ => []
  | (k', v') :: rest, k => if k' = k then rest else (k', v') :: alistErase rest k

/-- One step of the construction of the violationTypeSeverity Map inside
calculateIntegrityScore: a fresh type is inserted with the event severity,
an already-present type keeps the higher of the stored and the incoming
severity (comparison by severityRank). -/
def updSeverity : List (ViolationType × Severity) → ViolationType → Severity →
    List (ViolationType × Severity)
  | [], t, s => [(t, s)]
  | (t', s') :: rest, t, s =>
    if t' = t then
      (t', if severityRank s > severityRank s' then s else s') :: rest
    else
      (t', s') :: updSeverity rest t s

/-- The violationTypeSeverity Map built by the forEach loop of
calculateIntegrityScore, in insertion order. -/
def buildSeverityMap (violations : List ViolationEvent) :
    List (ViolationType × Severity) :=
  violations.foldl (fun m v => updSeverity m v.type v.severity) []

/-- Sum of deductions over the entries of the severity map, as accumulated
by the second forEach loop of calculateIntegrityScore. -/
def mapTotal (m : List (ViolationType × Severity)) : Nat :=
  (m.map fun p => deduction p.2).sum

/-- The function calculateIntegrityScore of useProctoring.ts: build the
per-type highest-severity map, sum the deductions over its entries and
return Math.max(0, 100 - deductions). -/
def calculateIntegrityScore (violations : List ViolationEvent) : Int :=
  let deductions := mapTotal (buildSeverityMap violations)
  max 0 (100 - (deductions : Int))

/-- The max of two severities by severityRank, written exactly as the
comparison inside calculateIntegrityScore keeps the highest severity. -/
def sevMax (a b : Severity) : Severity :=
  if severityRank b > severityRank a then b else a

/-- Running-maximum step over an optional current maximum. -/
def stepSev (acc : Option Severity) (s : Severity) : Option Severity :=
  match acc with
  | none => some s
  | some s₀ => some (sevMax s₀ s)

/-- Maximum severity of a list of severities (none for the empty list). -/
def maxSeverity (l : List Severity) : Option Severity :=
  l.foldl stepSev none

/-- Severities of the events of a given type, in timeline order. -/
def eventsOfType (vs : List ViolationEvent) (t : ViolationType) : List Severity :=
  (vs.filter fun v => v.type = t).map fun v => v.severity

/-- Deduction contributed by one violation type: the deduction of the
maximum severity among events of that type, or 0 when the type is absent. -/
def typeDeduction (vs : List ViolationEvent) (t : ViolationType) : Nat :=
  match maxSeverity (eventsOfType vs t) with
  | none => 0
  | some s => deduction s

/-- All seven violation types. -/
def allViolationTypes : List ViolationType :=
  [.FACE_NOT_VISIBLE, .LOOKING_AWAY, .MULTIPLE_FACES, .PHONE_DETECTED,
   .BOOK_DETECTED, .DEVICE_DETECTED, .CANDIDATE_ABSENT]

/-- Reference definition of the integrity score, following the wording of
the spec: group the events by type, keep for each type the maximum
severity among its events, sum the deductions over these per-type maxima,
and return clamp(100 - totalDeductions, 0, 100). -/
def specIntegrityScore (vs : List ViolationEvent) : Int :=
  let total := (allViolationTypes.map (typeDeduction vs)).sum
  min 100 (max 0 (100 - (total : Int)))

theorem mem_allViolationTypes (t : ViolationType) : t ∈ allViolationTypes := by
  cases t <;> simp [allViolationTypes]

theorem nodup_allViolationTypes : allViolationTypes.Nodup := by decide

theorem alistLookup_updSeverity (m : List (ViolationType × Severity))
    (t₀ : ViolationType) (s : Severity) (t : ViolationType) :
    alistLookup (updSeverity m t₀ s) t =
      if t₀ = t then
        some (match alistLookup m t₀ with
              | none => s
              | some s₀ => sevMax s₀ s)
      else alistLookup m t := by
  induction m with
  | nil =>
    simp only [updSeverity, alistLookup]
  | cons hd tl ih =>
    obtain ⟨t', s'⟩ := hd
    by_cases h1 : t' = t₀
    · subst h1
      by_cases h2 : t' = t
      · subst h2
        simp [updSeverity, alistLookup, sevMax]
      · simp [updSeverity, alistLookup, h2]
    · by_cases h2 : t' = t
      · subst h2
        have h3 : ¬ t₀ = t' := fun h => h1 h.symm
        simp [updSeverity, alistLookup, h1, h3, Ne.symm h1]
      · simp [updSeverity, alistLookup, h1, h2, ih]

theorem maxSeverity_append (l : List Severity) (s : Severity) :
    maxSeverity (l ++ [s]) = stepSev (maxSeverity l) s := by
  simp [maxSeverity, List.foldl_append]

theorem eventsOfType_append (vs : List ViolationEvent) (v : ViolationEvent)
    (t : ViolationType) :
    eventsOfType (vs ++ [v]) t =
      eventsOfType vs t ++ (if v.type = t then [v.severity] else []) := by
  by_cases h : v.type = t <;>
    simp [eventsOfType, List.filter_append, h]

theorem buildSeverityMap_append (vs : List ViolationEvent) (v : ViolationEvent) :
    buildSeverityMap (vs ++ [v]) =
      updSeverity (buildSeverityMap vs) v.type v.severity := by
  simp [buildSeverityMap, List.foldl_append]

theorem alistLookup_buildSeverityMap (vs : List ViolationEvent) (t : ViolationType) :
    alistLookup (buildSeverityMap vs) t = maxSeverity (eventsOfType vs t) := by
  induction vs using List.reverseRecOn with
  | nil => simp [buildSeverityMap, alistLookup, eventsOfType, maxSeverity]
  | append_singleton vs v ih =>
    rw [buildSeverityMap_append, alistLookup_updSeverity, eventsOfType_append]
    by_cases h : v.type = t
    · subst h
      rw [if_pos rfl, if_pos rfl, maxSeverity_append, ih]
      cases maxSeverity (eventsOfType vs v.type) <;> rfl
    · rw [if_neg h, if_neg h, List.append_nil, ih]

theorem mapTotal_updSeverity_none (m : List (ViolationType × Severity))
    (t : ViolationType) (s : Severity) (h : alistLookup m t = none) :
    mapTotal (updSeverity m t s) = mapTotal m + deduction s := by
  induction m with
  | nil => simp [updSeverity, mapTotal]
  | cons hd tl ih =>
    obtain ⟨t', s'⟩ := hd
    by_cases h1 : t' = t
    · subst h1
      simp [alistLookup] at h
    · simp only [alistLookup, if_neg h1] at h
      simp only [updSeverity, if_neg h1, mapTotal, List.map_cons, List.sum_cons]
      have := ih h
      simp only [mapTotal] at this
      omega

theorem mapTotal_updSeverity_some (m : List (ViolationType × Severity))
    (t : ViolationType) (s s₀ : Severity) (h : alistLookup m t = some s₀) :
    mapTotal (updSeverity m t s) + deduction s₀ =
      mapTotal m + deduction (sevMax s₀ s) := by
  induction m with
  | nil => simp [alistLookup] at h
  | cons hd tl ih =>
    obtain ⟨t', s'⟩ := hd
    by_cases h1 : t' = t
    · subst h1
      simp [alistLookup] at h
      subst h
      simp only [updSeverity, if_pos rfl, mapTotal, List.map_cons, List.sum_cons, sevMax]
      by_cases h2 : severityRank s > severityRank s'
      · simp [h2]
        omega
      · simp [h2]
    · simp only [alistLookup, if_neg h1] at h
      simp only [updSeverity, if_neg h1, mapTotal, List.map_cons, List.sum_cons]
      have := ih h
      simp only [mapTotal] at this
      omega

theorem sum_update_point (f g : ViolationType → Nat) (t₀ : ViolationType)
    (hne : ∀ t, t ≠ t₀ → f t = g t) :
    ∀ l : List ViolationType, t₀ ∈ l → l.Nodup →
      (l.map f).sum + g t₀ = (l.map g).sum + f t₀ := by
  intro l
  induction l with
  | nil =>
    intro hmem _
    simp at hmem
  | cons hd tl ih =>
    intro hmem hnd
    rcases List.mem_cons.mp hmem with h | h
    · subst h
      have hfg : ∀ t ∈ tl, f t = g t := by
        intro t ht
        refine hne t ?_
        intro he
        subst he
        exact (List.nodup_cons.mp hnd).1 ht
      have hmap : tl.map f = tl.map g := List.map_congr_left hfg
      simp only [List.map_cons, List.sum_cons, hmap]
      omega
    · have hhd : hd ≠ t₀ := by
        intro he
        subst he
        exact (List.nodup_cons.mp hnd).1 h
      have hrec := ih h (List.nodup_cons.mp hnd).2
      simp only [List.map_cons, List.sum_cons, hne hd hhd]
      omega

theorem typeDeduction_append_self_none (vs : List ViolationEvent)
    (v : ViolationEvent) (h : maxSeverity (eventsOfType vs v.type) = none) :
    typeDeduction (vs ++ [v]) v.type = deduction v.severity := by
  unfold typeDeduction
  rw [eventsOfType_append, if_pos rfl, maxSeverity_append, h]
  rfl

theorem typeDeduction_append_self_some (vs : List ViolationEvent)
    (v : ViolationEvent) (s₀ : Severity)
    (h : maxSeverity (eventsOfType vs v.type) = some s₀) :
    typeDeduction (vs ++ [v]) v.type = deduction (sevMax s₀ v.severity) := by
  unfold typeDeduction
  rw [eventsOfType_append, if_pos rfl, maxSeverity_append, h]
  rfl

theorem typeDeduction_append_other (vs : List ViolationEvent)
    (v : ViolationEvent) (t : ViolationType) (h : ¬ v.type = t) :
    typeDeduction (vs ++ [v]) t = typeDeduction vs t := by
  unfold typeDeduction
  rw [eventsOfType_append, if_neg h, List.append_nil]

theorem mapTotal_buildSeverityMap (vs : List ViolationEvent) :
    mapTotal (buildSeverityMap vs) =
      (allViolationTypes.map (typeDeduction vs)).sum := by
  induction vs using List.reverseRecOn with
  | nil => rfl
  | append_singleton vs v ih =>
    rw [buildSeverityMap_append]
    have hlk := alistLookup_buildSeverityMap vs v.type
    have hpoint := sum_update_point
      (typeDeduction vs) (typeDeduction (vs ++ [v])) v.type
      (by
        intro t ht
        exact (typeDeduction_append_other vs v t fun he => ht he.symm).symm)
      allViolationTypes (mem_allViolationTypes v.type) nodup_allViolationTypes
    cases hcase : maxSeverity (eventsOfType vs v.type) with
    | none =>
      rw [hcase] at hlk
      have h1 := mapTotal_updSeverity_none (buildSeverityMap vs) v.type v.severity hlk
      have htd := typeDeduction_append_self_none vs v hcase
      have htd0 : typeDeduction vs v.type = 0 := by
        simp [typeDeduction, hcase]
      omega
    | some s₀ =>
      rw [hcase] at hlk
      have h1 := mapTotal_updSeverity_some (buildSeverityMap vs) v.type v.severity s₀ hlk
      have htd := typeDeduction_append_self_some vs v s₀ hcase
      have htd0 : typeDeduction vs v.type = deduction s₀ := by
        simp [typeDeduction, hcase]
      omega

theorem calcEqSpec (vs : List ViolationEvent) :
    calculateIntegrityScore vs = specIntegrityScore vs := by
  simp only [calculateIntegrityScore, specIntegrityScore, mapTotal_buildSeverityMap]
  generalize (allViolationTypes.map (typeDeduction vs)).sum = d
  have h0 : (0 : Int) ≤ (d : Int) := Int.ofNat_nonneg d
  simp only [max_def, min_def]
  split_ifs <;> omega

theorem calc_bounds (vs : List ViolationEvent) :
    0 ≤ calculateIntegrityScore vs ∧ calculateIntegrityScore vs ≤ 100 := by
  simp only [calculateIntegrityScore]
  generalize mapTotal (buildSeverityMap vs) = d
  have h0 : (0 : Int) ≤ (d : Int) := Int.ofNat_nonneg d
  simp only [max_def]
  constructor <;> split_ifs <;> omega

/-- Claim C1: for every list of violation events, calculateIntegrityScore
equals the reference definition (group by type, keep the maximum severity
per type, sum the deductions Low=2, Medium=5, High=10, Critical=20 over
the per-type maxima, clamp 100 minus the total into the interval 0..100),
and the result always lies in the interval 0..100. -/
theorem C1_calculateIntegrityScore_matches_reference (vs : List ViolationEvent) :
    calculateIntegrityScore vs = specIntegrityScore vs ∧
      0 ≤ calculateIntegrityScore vs ∧ calculateIntegrityScore vs ≤ 100 :=
  ⟨calcEqSpec vs, calc_bounds vs⟩

instance : RightCommutative stepSev := ⟨by decide⟩

theorem maxSeverity_perm {l₁ l₂ : List Severity} (h : l₁.Perm l₂) :
    maxSeverity l₁ = maxSeverity l₂ :=
  h.foldl_eq none

theorem eventsOfType_perm {vs vs' : List ViolationEvent} (h : vs.Perm vs')
    (t : ViolationType) : (eventsOfType vs t).Perm (eventsOfType vs' t) :=
  (h.filter _).map _

theorem typeDeduction_perm {vs vs' : List ViolationEvent} (h : vs.Perm vs')
    (t : ViolationType) : typeDeduction vs t = typeDeduction vs' t := by
  unfold typeDeduction
  rw [maxSeverity_perm (eventsOfType_perm h t)]

theorem calc_perm {vs vs' : List ViolationEvent} (h : vs.Perm vs') :
    calculateIntegrityScore vs = calculateIntegrityScore vs' := by
  rw [calcEqSpec, calcEqSpec]
  unfold specIntegrityScore
  have hmap : allViolationTypes.map (typeDeduction vs) =
      allViolationTypes.map (typeDeduction vs') :=
    List.map_congr_left fun t _ => typeDeduction_perm h t
  rw [hmap]

theorem severityRank_le_sevMax_left (a b : Severity) :
    severityRank a ≤ severityRank (sevMax a b) := by
  cases a <;> cases b <;> decide

theorem severityRank_le_sevMax_right (a b : Severity) :
    severityRank b ≤ severityRank (sevMax a b) := by
  cases a <;> cases b <;> decide

theorem sevMax_eq_left {a b : Severity} (h : severityRank b ≤ severityRank a) :
    sevMax a b = a := by
  unfold sevMax
  rw [if_neg (by omega)]

theorem maxSeverity_mem_le (l : List Severity) (s : Severity) (hs : s ∈ l) :
    ∃ m, maxSeverity l = some m ∧ severityRank s ≤ severityRank m := by
  induction l using List.reverseRecOn with
  | nil => simp at hs
  | append_singleton l s' ih =>
    rw [maxSeverity_append]
    rcases List.mem_append.mp hs with h | h
    · obtain ⟨m, hm, hle⟩ := ih h
      rw [hm]
      exact ⟨sevMax m s', rfl, le_trans hle (severityRank_le_sevMax_left m s')⟩
    · simp only [List.mem_singleton] at h
      subst h
      cases hM : maxSeverity l with
      | none => exact ⟨s, rfl, le_refl _⟩
      | some m => exact ⟨sevMax m s, rfl, severityRank_le_sevMax_right m s⟩

theorem calc_append_dup (vs : List ViolationEvent) (v w : ViolationEvent)
    (hw : w ∈ vs) (ht : w.type = v.type)
    (hs : severityRank v.severity ≤ severityRank w.severity) :
    calculateIntegrityScore (vs ++ [v]) = calculateIntegrityScore vs := by
  rw [calcEqSpec, calcEqSpec]
  unfold specIntegrityScore
  have hmap : allViolationTypes.map (typeDeduction (vs ++ [v])) =
      allViolationTypes.map (typeDeduction vs) := by
    refine List.map_congr_left ?_
    intro t _
    by_cases h : v.type = t
    · subst h
      have hwmem : w.severity ∈ eventsOfType vs v.type := by
        unfold eventsOfType
        refine List.mem_map.mpr ⟨w, ?_, rfl⟩
        exact List.mem_filter.mpr ⟨hw, by simp [ht]⟩
      obtain ⟨m, hm, hle⟩ := maxSeverity_mem_le _ _ hwmem
      rw [typeDeduction_append_self_some vs v m hm,
        sevMax_eq_left (le_trans hs hle)]
      simp [typeDeduction, hm]
    · exact typeDeduction_append_other vs v t h
  rw [hmap]

/-- Claim C2: calculateIntegrityScore is invariant under permutation of the
violation list, and appending a duplicate event whose type already occurs
in the list with severity at least the new event's severity leaves the
score unchanged. -/
theorem C2_score_invariance (vs vs' : List ViolationEvent)
    (v w : ViolationEvent) :
    (vs.Perm vs' → calculateIntegrityScore vs = calculateIntegrityScore vs') ∧
      (w ∈ vs → w.type = v.type →
        severityRank v.severity ≤ severityRank w.severity →
        calculateIntegrityScore (vs ++ [v]) = calculateIntegrityScore vs) :=
  ⟨fun h => calc_perm h, fun hw ht hs => calc_append_dup vs v w hw ht hs⟩

/-- Sample events used by the witness theorems. -/
def evA : ViolationEvent :=
  { id := "violation_1", type := .LOOKING_AWAY, timestamp := 1,
    description := "Candidate looking away from screen for more than 5 seconds",
    severity := .medium }

/-- Second sample event, same type and severity as evA but different
identity fields. -/
def evB : ViolationEvent :=
  { id := "violation_2", type := .LOOKING_AWAY, timestamp := 9,
    description := "other text", severity := .medium, duration := some 5 }

/-- Third sample event of a different type. -/
def evC : ViolationEvent :=
  { id := "violation_3", type := .PHONE_DETECTED, timestamp := 20,
    description := "Mobile phone detected with 55% confidence",
    severity := .critical }

/-- Witness for claim C2 at concrete inputs: a two-element list and its
swap give the same score, and appending a duplicate LOOKING_AWAY event of
equal severity leaves the score unchanged. -/
theorem C2_score_invariance_witness :
    calculateIntegrityScore [evC, evA] = calculateIntegrityScore [evA, evC] ∧
      calculateIntegrityScore ([evA, evC] ++ [evB]) =
        calculateIntegrityScore [evA, evC] :=
  ⟨(C2_score_invariance [evC, evA] [evA, evC] evA evA).1
      (List.Perm.swap evA evC []),
    (C2_score_invariance [evA, evC] [evA, evC] evB evA).2
      (by decide) (by decide) (by decide)⟩

/-- Score computed from the list of (type, severity) pairs alone, used to
state that the integrity score ignores all other event fields. -/
def scoreOfPairs (ps : List (ViolationType × Severity)) : Int :=
  let m := ps.foldl (fun m p => updSeverity m p.1 p.2) []
  max 0 (100 - (mapTotal m : Int))

theorem calc_eq_scoreOfPairs (vs : List ViolationEvent) :
    calculateIntegrityScore vs =
      scoreOfPairs (vs.map fun v => (v.type, v.severity)) := by
  simp only [calculateIntegrityScore, scoreOfPairs, buildSeverityMap, List.foldl_map]

/-- Claim C9: the integrity score is a function of only the (type,
severity) pairs of the events: two violation lists that agree pairwise on
type and severity get the same score, whatever their ids, timestamps,
descriptions and durations. -/
theorem C9_score_depends_only_on_type_severity (vs vs' : List ViolationEvent)
    (h : vs.map (fun v => (v.type, v.severity)) =
      vs'.map (fun v => (v.type, v.severity))) :
    calculateIntegrityScore vs = calculateIntegrityScore vs' := by
  rw [calc_eq_scoreOfPairs, calc_eq_scoreOfPairs, h]

/-- Witness for claim C9: evA and evB share type and severity but differ
in id, timestamp, description and duration. -/
theorem C9_score_depends_only_on_type_severity_witness :
    calculateIntegrityScore [evA] = calculateIntegrityScore [evB] :=
  C9_score_depends_only_on_type_severity [evA] [evB] (by decide)

/-- The SessionData aggregate of types/proctoring.ts.  Instants are
milliseconds; totalDuration is in seconds. -/
structure SessionData where
  candidateName : String
  sessionId : String
  startTime : Int
  endTime : Option Int := none
  violations : List ViolationEvent
  totalDuration : Int
  integrityScore : Int
deriving DecidableEq, Repr

/-- The MonitoringStatus record of types/proctoring.ts. -/
structure MonitoringStatus where
  isRecording : Bool
  faceDetected : Bool
  objectsDetected : List String
  currentViolation : Option ViolationType := none
  violationStartTime : Option Int := none
deriving DecidableEq, Repr

/-- A pending debounce timer, as created by setTimeout inside
handleViolationTimeout: the violation it will emit and the instant at
which its delay elapses. -/
structure TimerInfo where
  description : String
  severity : Severity
  expiry : Int
deriving DecidableEq, Repr

/-- The mutable state owned by the useProctoring hook: the session
aggregate, the monitoring status, and the three ref-held maps
violationTimeouts, objectCooldowns and violationCooldowns. -/
structure ProctoringState where
  sessionData : SessionData
  monitoringStatus : MonitoringStatus
  violationTimeouts : List (ViolationType × TimerInfo)
  objectCooldowns : List (String × Int)
  violationCooldowns : List (ViolationType × Int)
deriving DecidableEq, Repr

/-- The getCooldownPeriod switch of useProctoring.ts, in milliseconds. -/
def getCooldownPeriod : ViolationType → Int
  | .MULTIPLE_FACES => 15000
  | .FACE_NOT_VISIBLE => 20000
  | .LOOKING_AWAY => 10000
  | .PHONE_DETECTED => 30000
  | .DEVICE_DETECTED => 30000
  | .BOOK_DETECTED => 30000
  | .CANDIDATE_ABSENT => 10000

/-- Identifier given to a violation created at a given instant. -/
def mkViolationId (now : Int) : String := "violation_" ++ toString now

/-- The addViolation function of useProctoring.ts: a no-op while the
violation type is inside its cooldown window (the last-emission instant
defaults to 0 when absent, mirroring the JavaScript expression that ors
the map lookup with 0); otherwise it appends one event to the timeline,
recomputes the integrity score from the new list, and records the emission
instant in the violation cooldown map. -/
def addViolation (now : Int) (t : ViolationType) (description : String)
    (severity : Severity) (s : ProctoringState) : ProctoringState :=
  let lastViolation := (alistLookup s.violationCooldowns t).getD 0
  let cooldownPeriod := getCooldownPeriod t
  if now - lastViolation < cooldownPeriod then s
  else
    let violation : ViolationEvent :=
      { id := mkViolationId now, type := t, timestamp := now,
        description := description, severity := severity }
    let newViolations := s.sessionData.violations ++ [violation]
    { s with
      sessionData := { s.sessionData with
        violations := newViolations,
        integrityScore := calculateIntegrityScore newViolations },
      violationCooldowns := alistSet s.violationCooldowns t now }

/-- The handleViolationTimeout function: starting a debounce timer for a
type that already has a pending one is a no-op; otherwise a single-shot
timer is scheduled to fire after the given delay. -/
def handleViolationTimeout (now : Int) (t : ViolationType)
    (description : String) (severity : Severity) (delay : Int)
    (s : ProctoringState) : ProctoringState :=
  if (alistLookup s.violationTimeouts t).isSome then s
  else
    { s with violationTimeouts :=
        alistSet s.violationTimeouts t ⟨description, severity, now + delay⟩ }

/-- The clearViolationTimeout function: cancel the pending timer of a type
without firing it; a no-op when no timer is pending. -/
def clearViolationTimeout (t : ViolationType) (s : ProctoringState) :
    ProctoringState :=
  match alistLookup s.violationTimeouts t with
  | none => s
  | some _ => { s with violationTimeouts := alistErase s.violationTimeouts t }

/-- Expiry of a pending timer: the setTimeout callback runs, calling
addViolation with the stored description and severity and then deleting
the timer from the map.  A timer that is not pending, or whose delay has
not yet elapsed, does not fire. -/
def fireViolationTimeout (now : Int) (t : ViolationType)
    (s : ProctoringState) : ProctoringState :=
  match alistLookup s.violationTimeouts t with
  | none => s
  | some info =>
      if now < info.expiry then s
      else
        let s' := addViolation now t info.description info.severity s
        { s' with violationTimeouts := alistErase s'.violationTimeouts t }

/-- The startMonitoring function: set isRecording and reset startTime,
leaving everything else alone. -/
def startMonitoring (now : Int) (s : ProctoringState) : ProctoringState :=
  { s with
    monitoringStatus := { s.monitoringStatus with isRecording := true },
    sessionData := { s.sessionData with startTime := now } }

/-- The stopMonitoring function: clear isRecording, finalize endTime and
totalDuration (Math.floor of the elapsed milliseconds over 1000), cancel
every pending debounce timer and clear the violation-type cooldown map.
Note that the code leaves the objectCooldowns map untouched. -/
def stopMonitoring (now : Int) (s : ProctoringState) : ProctoringState :=
  { s with
    monitoringStatus := { s.monitoringStatus with isRecording := false },
    sessionData := { s.sessionData with
      endTime := some now,
      totalDuration := (now - s.sessionData.startTime).fdiv 1000 },
    violationTimeouts := [],
    violationCooldowns := [] }

/-- One detected object as returned by the detection adapter.  The
JavaScript confidence is a float in 0..1 used only inside description
strings as Math.round(confidence * 100); it is represented here directly
as that integer percentage. -/
structure ObjectResult where
  object : String
  confidence : Int
deriving DecidableEq, Repr

/-- Test that sub occurs as a contiguous run inside a list of
characters. -/
def containsSub (sub : List Char) : List Char → Bool
  | [] => sub.isEmpty
  | c :: rest => sub.isPrefixOf (c :: rest) || containsSub sub rest

/-- Substring test matching the JavaScript String.includes method. -/
def strIncludes (s sub : String) : Bool :=
  containsSub sub.toList s.toList

/-- ASCII lower-casing of a label, standing in for the JavaScript
toLowerCase call (every label produced by the detector is ASCII). -/
def strToLower (s : String) : String :=
  String.mk (s.toList.map Char.toLower)

/-- Description template of a PhoneDetected violation. -/
def phoneDescription (confidencePct : Int) : String :=
  "Mobile phone detected with " ++ toString confidencePct ++ "% confidence"

/-- Description template of a BookDetected violation. -/
def bookDescription (confidencePct : Int) : String :=
  "Book/notes detected with " ++ toString confidencePct ++ "% confidence"

/-- Description template of a DeviceDetected violation. -/
def deviceDescription (label : String) : String :=
  "Electronic device detected: " ++ label

/-- Processing of one detected object by the forEach loop at the end of
processDetectionResults: lower-case the label, consult the per-label 30s
cooldown, and when it has elapsed classify the label by substring
(phone, then book, then laptop or tablet), emit the corresponding
violation through addViolation, and stamp the label cooldown with the
current instant.  Labels matching no category change nothing. -/
def processObject (now : Int) (obj : ObjectResult) (s : ProctoringState) :
    ProctoringState :=
  let objectKey := (strToLower obj.object)
  let lastDetection := (alistLookup s.objectCooldowns objectKey).getD 0
  let cooldownPeriod : Int := 30000
  if now - lastDetection > cooldownPeriod then
    if strIncludes objectKey "phone" then
      let s' := addViolation now .PHONE_DETECTED
        (phoneDescription obj.confidence) .critical s
      { s' with objectCooldowns := alistSet s'.objectCooldowns objectKey now }
    else if strIncludes objectKey "book" then
      let s' := addViolation now .BOOK_DETECTED
        (bookDescription obj.confidence) .high s
      { s' with objectCooldowns := alistSet s'.objectCooldowns objectKey now }
    else if strIncludes objectKey "laptop" || strIncludes objectKey "tablet" then
      let s' := addViolation now .DEVICE_DETECTED
        (deviceDescription obj.object) .high s
      { s' with objectCooldowns := alistSet s'.objectCooldowns objectKey now }
    else s
  else s

/-- Per-frame update of the monitoring status performed before violation
processing: faceDetected mirrors the detector result and objectsDetected
lists the labels of every detected object. -/
def updateMonitoringStatus (hasFace : Bool) (objs : List ObjectResult)
    (st : MonitoringStatus) : MonitoringStatus :=
  { st with faceDetected := hasFace,
            objectsDetected := objs.map fun o => o.object }

/-- The allow-list of suspicious COCO classes in detectObjects of
detection.ts. -/
def suspiciousObjects : List String :=
  ["cell phone", "book", "laptop", "mouse", "keyboard",
   "remote", "scissors", "teddy bear", "hair drier", "toothbrush"]

/-- The filter predicate of detectObjects: the prediction class matches
some allow-listed label in either containment direction and the score
(given as an integer percentage) exceeds 0.4. -/
def passesObjectFilter (className : String) (scorePct : Int) : Bool :=
  (suspiciousObjects.any fun obj =>
    strIncludes (strToLower className) obj || strIncludes obj (strToLower className)) &&
  scorePct > 40

theorem alistLookup_cons {κ ν : Type} [DecidableEq κ] (k' : κ) (v' : ν)
    (tl : List (κ × ν)) (k : κ) :
    alistLookup ((k', v') :: tl) k =
      if k' = k then some v' else alistLookup tl k := rfl

theorem alistSet_cons {κ ν : Type} [DecidableEq κ] (k' : κ) (v' : ν)
    (tl : List (κ × ν)) (k : κ) (v : ν) :
    alistSet ((k', v') :: tl) k v =
      if k' = k then (k, v) :: tl else (k', v') :: alistSet tl k v := rfl

theorem alistErase_cons {κ ν : Type} [DecidableEq κ] (k' : κ) (v' : ν)
    (tl : List (κ × ν)) (k : κ) :
    alistErase ((k', v') :: tl) k =
      if k' = k then tl else (k', v') :: alistErase tl k := rfl

theorem alistLookup_set_self {κ ν : Type} [DecidableEq κ]
    (m : List (κ × ν)) (k : κ) (v : ν) :
    alistLookup (alistSet m k v) k = some v := by
  induction m with
  | nil => simp [alistSet, alistLookup]
  | cons hd tl ih =>
    obtain ⟨k', v'⟩ := hd
    rw [alistSet_cons]
    by_cases h : k' = k
    · rw [if_pos h, alistLookup_cons, if_pos rfl]
    · rw [if_neg h, alistLookup_cons, if_neg h, ih]

theorem alistLookup_set_ne {κ ν : Type} [DecidableEq κ]
    (m : List (κ × ν)) (k k₀ : κ) (v : ν) (h : k ≠ k₀) :
    alistLookup (alistSet m k₀ v) k = alistLookup m k := by
  induction m with
  | nil =>
    show (if k₀ = k then some v else none) = none
    rw [if_neg (Ne.symm h)]
  | cons hd tl ih =>
    obtain ⟨k', v'⟩ := hd
    rw [alistSet_cons]
    by_cases h1 : k' = k₀
    · rw [if_pos h1, alistLookup_cons, alistLookup_cons,
        if_neg (Ne.symm h), h1, if_neg fun he => h he.symm]
    · rw [if_neg h1, alistLookup_cons, alistLookup_cons, ih]

theorem alistLookup_none_of_not_mem_keys {κ ν : Type} [DecidableEq κ]
    (m : List (κ × ν)) (k : κ) (h : k ∉ m.map Prod.fst) :
    alistLookup m k = none := by
  induction m with
  | nil => rfl
  | cons hd tl ih =>
    obtain ⟨k', v'⟩ := hd
    simp only [List.map_cons, List.mem_cons] at h
    push_neg at h
    rw [alistLookup_cons, if_neg (Ne.symm h.1), ih h.2]

theorem alistLookup_erase_of_none {κ ν : Type} [DecidableEq κ]
    (m : List (κ × ν)) (k k₀ : κ) (h : alistLookup m k = none) :
    alistLookup (alistErase m k₀) k = none := by
  induction m with
  | nil => rfl
  | cons hd tl ih =>
    obtain ⟨k', v'⟩ := hd
    by_cases h1 : k' = k
    · rw [alistLookup_cons, if_pos h1] at h
      exact absurd h (by simp)
    · rw [alistLookup_cons, if_neg h1] at h
      rw [alistErase_cons]
      by_cases h2 : k' = k₀
      · rw [if_pos h2]
        exact h
      · rw [if_neg h2, alistLookup_cons, if_neg h1, ih h]

theorem alistLookup_erase_self {κ ν : Type} [DecidableEq κ]
    (m : List (κ × ν)) (k : κ) (hnd : (m.map Prod.fst).Nodup) :
    alistLookup (alistErase m k) k = none := by
  induction m with
  | nil => rfl
  | cons hd tl ih =>
    obtain ⟨k', v'⟩ := hd
    simp only [List.map_cons, List.nodup_cons] at hnd
    rw [alistErase_cons]
    by_cases h : k' = k
    · rw [if_pos h]
      exact alistLookup_none_of_not_mem_keys tl k (h ▸ hnd.1)
    · rw [if_neg h, alistLookup_cons, if_neg h, ih hnd.2]

theorem mem_keys_alistSet {κ ν : Type} [DecidableEq κ]
    (m : List (κ × ν)) (k : κ) (v : ν) (x : κ)
    (h : x ∈ (alistSet m k v).map Prod.fst) :
    x ∈ m.map Prod.fst ∨ x = k := by
  induction m with
  | nil =>
    simp only [alistSet, List.map_cons, List.map_nil,
      List.mem_singleton] at h
    exact Or.inr h
  | cons hd tl ih =>
    obtain ⟨k', v'⟩ := hd
    rw [alistSet_cons] at h
    by_cases h1 : k' = k
    · rw [if_pos h1] at h
      simp only [List.map_cons, List.mem_cons] at h
      rcases h with h | h
      · exact Or.inr h
      · exact Or.inl (List.mem_cons_of_mem _ h)
    · rw [if_neg h1] at h
      simp only [List.map_cons, List.mem_cons] at h
      rcases h with h | h
      · exact Or.inl (List.mem_cons.mpr (Or.inl h))
      · rcases ih h with h2 | h2
        · exact Or.inl (List.mem_cons_of_mem _ h2)
        · exact Or.inr h2

theorem nodupKeys_alistSet {κ ν : Type} [DecidableEq κ]
    (m : List (κ × ν)) (k : κ) (v : ν)
    (hnd : (m.map Prod.fst).Nodup) :
    ((alistSet m k v).map Prod.fst).Nodup := by
  induction m with
  | nil => simp [alistSet]
  | cons hd tl ih =>
    obtain ⟨k', v'⟩ := hd
    simp only [List.map_cons, List.nodup_cons] at hnd
    rw [alistSet_cons]
    by_cases h1 : k' = k
    · rw [if_pos h1]
      simp only [List.map_cons, List.nodup_cons]
      exact ⟨h1 ▸ hnd.1, hnd.2⟩
    · rw [if_neg h1]
      simp only [List.map_cons, List.nodup_cons]
      refine ⟨?_, ih hnd.2⟩
      intro hmem
      rcases mem_keys_alistSet tl k v k' hmem with h2 | h2
      · exact hnd.1 h2
      · exact h1 h2

theorem keys_alistErase_sublist {κ ν : Type} [DecidableEq κ]
    (m : List (κ × ν)) (k : κ) :
    List.Sublist ((alistErase m k).map Prod.fst) (m.map Prod.fst) := by
  induction m with
  | nil => exact List.Sublist.refl _
  | cons hd tl ih =>
    obtain ⟨k', v'⟩ := hd
    rw [alistErase_cons]
    by_cases h : k' = k
    · rw [if_pos h]
      exact List.sublist_cons_self k' (tl.map Prod.fst)
    · rw [if_neg h]
      simpa using ih.cons₂ k'

theorem nodupKeys_alistErase {κ ν : Type} [DecidableEq κ]
    (m : List (κ × ν)) (k : κ) (hnd : (m.map Prod.fst).Nodup) :
    ((alistErase m k).map Prod.fst).Nodup :=
  hnd.sublist (keys_alistErase_sublist m k)

/-- Claim C3: addViolation is a no-op (whole state unchanged) while the
type's cooldown window from the last emission instant (0 when the type
was never emitted) has not elapsed; otherwise it appends exactly one
event, recomputes the score from the new list, stamps the type's
last-emission instant with now, and touches no other type's cooldown; the
per-type cooldown windows are 15 s for MultipleFaces, 20 s for
FaceNotVisible, 10 s for LookingAway, 30 s for Phone, Device and Book
detections, and 10 s for the remaining type. -/
theorem C3_addViolation_cooldown_gate (now : Int) (t : ViolationType)
    (d : String) (sev : Severity) (s : ProctoringState) :
    (now - (alistLookup s.violationCooldowns t).getD 0 < getCooldownPeriod t →
      addViolation now t d sev s = s) ∧
    (¬ now - (alistLookup s.violationCooldowns t).getD 0 < getCooldownPeriod t →
      (addViolation now t d sev s).sessionData.violations =
        s.sessionData.violations ++
          [{ id := mkViolationId now, type := t, timestamp := now,
             description := d, severity := sev }] ∧
      (addViolation now t d sev s).sessionData.integrityScore =
        calculateIntegrityScore
          ((addViolation now t d sev s).sessionData.violations) ∧
      alistLookup (addViolation now t d sev s).violationCooldowns t =
        some now ∧
      ∀ t', t' ≠ t →
        alistLookup (addViolation now t d sev s).violationCooldowns t' =
          alistLookup s.violationCooldowns t') ∧
    getCooldownPeriod .MULTIPLE_FACES = 15000 ∧
    getCooldownPeriod .FACE_NOT_VISIBLE = 20000 ∧
    getCooldownPeriod .LOOKING_AWAY = 10000 ∧
    getCooldownPeriod .PHONE_DETECTED = 30000 ∧
    getCooldownPeriod .DEVICE_DETECTED = 30000 ∧
    getCooldownPeriod .BOOK_DETECTED = 30000 ∧
    getCooldownPeriod .CANDIDATE_ABSENT = 10000 := by
  refine ⟨?_, ?_, rfl, rfl, rfl, rfl, rfl, rfl, rfl⟩
  · intro h
    unfold addViolation
    rw [if_pos h]
  · intro h
    unfold addViolation
    rw [if_neg h]
    exact ⟨rfl, rfl, alistLookup_set_self _ _ _,
      fun t' ht' => alistLookup_set_ne _ _ _ _ ht'⟩

/-- Base session aggregate used by the concrete witnesses. -/
def sd0 : SessionData :=
  { candidateName := "Anonymous Candidate", sessionId := "session_0",
    startTime := 1000, violations := [], totalDuration := 0,
    integrityScore := 100 }

/-- Base monitoring status used by the concrete witnesses. -/
def ms0 : MonitoringStatus :=
  { isRecording := true, faceDetected := false, objectsDetected := [] }

/-- Witness state with a LOOKING_AWAY emission recorded at instant 5000. -/
def st3 : ProctoringState :=
  { sessionData := sd0, monitoringStatus := ms0, violationTimeouts := [],
    objectCooldowns := [], violationCooldowns := [(.LOOKING_AWAY, 5000)] }

/-- Witness for claim C3: at instant 6000 a LOOKING_AWAY violation is
still inside the 10 s cooldown and is dropped; at instant 20000 it is
emitted, appended to the timeline and re-stamps the cooldown ledger. -/
theorem C3_addViolation_cooldown_gate_witness :
    addViolation 6000 .LOOKING_AWAY "d" .medium st3 = st3 ∧
    (addViolation 20000 .LOOKING_AWAY "d" .medium st3).sessionData.violations =
      st3.sessionData.violations ++
        [{ id := mkViolationId 20000, type := .LOOKING_AWAY,
           timestamp := 20000, description := "d", severity := .medium }] ∧
    alistLookup
      (addViolation 20000 .LOOKING_AWAY "d" .medium st3).violationCooldowns
      .LOOKING_AWAY = some 20000 :=
  ⟨(C3_addViolation_cooldown_gate 6000 .LOOKING_AWAY "d" .medium st3).1
      (by decide),
    ((C3_addViolation_cooldown_gate 20000 .LOOKING_AWAY "d" .medium st3).2.1
      (by decide)).1,
    ((C3_addViolation_cooldown_gate 20000 .LOOKING_AWAY "d" .medium st3).2.1
      (by decide)).2.2.1⟩

/-- Witness state for the stop-monitoring claim: a pending LOOKING_AWAY
debounce timer, one violation-type cooldown entry and one object-label
cooldown entry. -/
def st4 : ProctoringState :=
  { sessionData := sd0,
    monitoringStatus := ms0,
    violationTimeouts :=
      [(.LOOKING_AWAY,
        ⟨"Candidate looking away from screen for more than 5 seconds",
         .medium, 9000⟩)],
    objectCooldowns := [("cell phone", 5000)],
    violationCooldowns := [(.LOOKING_AWAY, 4000)] }

/-- Claim C4 (code bug): stopMonitoring clears isRecording, finalizes
endTime and the floored totalDuration, cancels every pending debounce
timer and clears the violation-type cooldown map, but — contrary to the
claim that both cooldown ledgers are reset — it leaves the per-object-label
cooldown map untouched, as this concrete run shows. -/
theorem C4_stopMonitoring_keeps_objectCooldowns :
    (stopMonitoring 61000 st4).monitoringStatus.isRecording = false ∧
    (stopMonitoring 61000 st4).sessionData.endTime = some 61000 ∧
    (stopMonitoring 61000 st4).sessionData.totalDuration = 60 ∧
    (stopMonitoring 61000 st4).violationTimeouts = [] ∧
    (stopMonitoring 61000 st4).violationCooldowns = [] ∧
    (stopMonitoring 61000 st4).objectCooldowns = [("cell phone", 5000)] ∧
    ¬ (stopMonitoring 61000 st4).objectCooldowns = [] := by
  refine ⟨rfl, rfl, by decide, rfl, rfl, rfl, by decide⟩

/-- Claim C8: startMonitoring sets isRecording and resets startTime while
leaving the violation timeline, the integrity score and the session id
unchanged. -/
theorem C8_startMonitoring_effects (now : Int) (s : ProctoringState) :
    (startMonitoring now s).monitoringStatus.isRecording = true ∧
    (startMonitoring now s).sessionData.startTime = now ∧
    (startMonitoring now s).sessionData.violations =
      s.sessionData.violations ∧
    (startMonitoring now s).sessionData.integrityScore =
      s.sessionData.integrityScore ∧
    (startMonitoring now s).sessionData.sessionId =
      s.sessionData.sessionId :=
  ⟨rfl, rfl, rfl, rfl, rfl⟩

theorem addViolation_timeouts (now : Int) (t : ViolationType) (d : String)
    (sev : Severity) (s : ProctoringState) :
    (addViolation now t d sev s).violationTimeouts = s.violationTimeouts := by
  simp only [addViolation]
  split <;> rfl

/-- Number of timeline events of a given violation type. -/
def countType (t : ViolationType) (s : ProctoringState) : Nat :=
  (s.sessionData.violations.filter fun v => v.type = t).length

theorem countType_addViolation_other (now : Int) (t' : ViolationType)
    (d : String) (sev : Severity) (s : ProctoringState) (t : ViolationType)
    (h : ¬ t' = t) :
    countType t (addViolation now t' d sev s) = countType t s := by
  simp only [addViolation]
  split
  · rfl
  · unfold countType
    simp [List.filter_append, List.filter_cons, h]

/-- Run a sequence of timer-expiry events, each given as an instant and
the violation type whose timer fires. -/
def runFires : List (Int × ViolationType) → ProctoringState → ProctoringState
  | [], s => s
  | (now, t) :: rest, s => runFires rest (fireViolationTimeout now t s)

theorem fire_preserves_none_and_count (now : Int) (t' t : ViolationType)
    (s : ProctoringState)
    (h : alistLookup s.violationTimeouts t = none) :
    alistLookup (fireViolationTimeout now t' s).violationTimeouts t = none ∧
      countType t (fireViolationTimeout now t' s) = countType t s := by
  cases hc : alistLookup s.violationTimeouts t' with
  | none =>
    have heq : fireViolationTimeout now t' s = s := by
      simp only [fireViolationTimeout, hc]
    rw [heq]
    exact ⟨h, rfl⟩
  | some info =>
    have htne : ¬ t' = t := by
      intro he
      rw [he, h] at hc
      cases hc
    simp only [fireViolationTimeout, hc]
    by_cases hexp : now < info.expiry
    · rw [if_pos hexp]
      exact ⟨h, rfl⟩
    · rw [if_neg hexp]
      refine ⟨?_, ?_⟩
      · rw [addViolation_timeouts]
        exact alistLookup_erase_of_none _ _ _ h
      · exact countType_addViolation_other now t' _ _ s t htne

theorem runFires_count (fires : List (Int × ViolationType))
    (t : ViolationType) (s : ProctoringState)
    (h : alistLookup s.violationTimeouts t = none) :
    countType t (runFires fires s) = countType t s := by
  induction fires generalizing s with
  | nil => rfl
  | cons f rest ih =>
    obtain ⟨now, t'⟩ := f
    obtain ⟨h1, h2⟩ := fire_preserves_none_and_count now t' t s h
    simp only [runFires]
    rw [ih _ h1, h2]

theorem clear_lookup_none (t : ViolationType) (s : ProctoringState)
    (hnd : (s.violationTimeouts.map Prod.fst).Nodup) :
    alistLookup (clearViolationTimeout t s).violationTimeouts t = none := by
  cases hc : alistLookup s.violationTimeouts t with
  | none =>
    have heq : clearViolationTimeout t s = s := by
      simp only [clearViolationTimeout, hc]
    rw [heq]
    exact hc
  | some info =>
    simp only [clearViolationTimeout, hc]
    exact alistLookup_erase_self _ _ hnd

theorem countType_clear (t t' : ViolationType) (s : ProctoringState) :
    countType t (clearViolationTimeout t' s) = countType t s := by
  cases hc : alistLookup s.violationTimeouts t' with
  | none => simp only [clearViolationTimeout, hc]
  | some info =>
    have heq : clearViolationTimeout t' s =
        { s with violationTimeouts := alistErase s.violationTimeouts t' } := by
      simp only [clearViolationTimeout, hc]
    rw [heq]
    rfl

/-- Claim C5: at most one in-flight debounce timer per violation type.
The pending-timer map keeps duplicate-free keys under every operation that
touches it, starting a timer for a type with a pending one is a no-op that
does not reset the pending delay, and canceling a timer for a type with no
pending one is a no-op. -/
theorem C5_single_timer_per_type (s : ProctoringState) (now : Int)
    (t₁ t₂ : ViolationType) (d : String) (sev : Severity) (delay : Int) :
    ((s.violationTimeouts.map Prod.fst).Nodup →
      (((handleViolationTimeout now t₁ d sev delay s).violationTimeouts.map
          Prod.fst).Nodup ∧
        ((clearViolationTimeout t₁ s).violationTimeouts.map Prod.fst).Nodup ∧
        ((fireViolationTimeout now t₁ s).violationTimeouts.map Prod.fst).Nodup ∧
        ((stopMonitoring now s).violationTimeouts.map Prod.fst).Nodup)) ∧
    ((alistLookup s.violationTimeouts t₁).isSome = true →
      handleViolationTimeout now t₁ d sev delay s = s) ∧
    (alistLookup s.violationTimeouts t₂ = none →
      clearViolationTimeout t₂ s = s) := by
  refine ⟨?_, ?_, ?_⟩
  · intro hnd
    refine ⟨?_, ?_, ?_, ?_⟩
    · unfold handleViolationTimeout
      split
      · exact hnd
      · exact nodupKeys_alistSet _ _ _ hnd
    · cases hc : alistLookup s.violationTimeouts t₁ with
      | none =>
        simp only [clearViolationTimeout, hc]
        exact hnd
      | some info =>
        simp only [clearViolationTimeout, hc]
        exact nodupKeys_alistErase _ _ hnd
    · cases hc : alistLookup s.violationTimeouts t₁ with
      | none =>
        simp only [fireViolationTimeout, hc]
        exact hnd
      | some info =>
        simp only [fireViolationTimeout, hc]
        by_cases hexp : now < info.expiry
        · rw [if_pos hexp]
          exact hnd
        · rw [if_neg hexp]
          rw [addViolation_timeouts]
          exact nodupKeys_alistErase _ _ hnd
    · exact List.nodup_nil
  · intro hp
    unfold handleViolationTimeout
    rw [if_pos hp]
  · intro hn
    simp only [clearViolationTimeout, hn]

/-- Witness for claim C5 at a concrete state with one pending
LOOKING_AWAY timer: duplicate-free timer keys are preserved by every
operation, re-starting the pending LOOKING_AWAY timer is a no-op, and
canceling the absent FACE_NOT_VISIBLE timer is a no-op. -/
theorem C5_single_timer_per_type_witness :
    (((handleViolationTimeout 8000 .LOOKING_AWAY "x" .medium 5000
        st4).violationTimeouts.map Prod.fst).Nodup ∧
      ((clearViolationTimeout .LOOKING_AWAY st4).violationTimeouts.map
        Prod.fst).Nodup ∧
      ((fireViolationTimeout 8000 .LOOKING_AWAY st4).violationTimeouts.map
        Prod.fst).Nodup ∧
      ((stopMonitoring 8000 st4).violationTimeouts.map Prod.fst).Nodup) ∧
    handleViolationTimeout 8000 .LOOKING_AWAY "x" .medium 5000 st4 = st4 ∧
    clearViolationTimeout .FACE_NOT_VISIBLE st4 = st4 :=
  ⟨(C5_single_timer_per_type st4 8000 .LOOKING_AWAY .FACE_NOT_VISIBLE "x"
      .medium 5000).1 (by decide),
    (C5_single_timer_per_type st4 8000 .LOOKING_AWAY .FACE_NOT_VISIBLE "x"
      .medium 5000).2.1 (by decide),
    (C5_single_timer_per_type st4 8000 .LOOKING_AWAY .FACE_NOT_VISIBLE "x"
      .medium 5000).2.2 (by decide)⟩

/-- Claim C7: once the pending debounce timer of a type is canceled —
either by clearViolationTimeout or by stopMonitoring — no sequence of
later timer expiries can add an event of that type to the timeline, so
the violation the timer would have emitted never appears. -/
theorem C7_canceled_timer_never_fires (t : ViolationType)
    (s : ProctoringState) (fires : List (Int × ViolationType)) (now : Int)
    (hnd : (s.violationTimeouts.map Prod.fst).Nodup) :
    countType t (runFires fires (clearViolationTimeout t s)) =
      countType t s ∧
    countType t (runFires fires (stopMonitoring now s)) = countType t s := by
  constructor
  · rw [runFires_count fires t _ (clear_lookup_none t s hnd)]
    exact countType_clear t t s
  · rw [runFires_count fires t (stopMonitoring now s) rfl]
    rfl

/-- Witness for claim C7: in state st4 a LOOKING_AWAY timer is pending
with expiry 9000; after cancelation (or a stop), replaying its expiry at
instant 9500 adds no LOOKING_AWAY event. -/
theorem C7_canceled_timer_never_fires_witness :
    countType .LOOKING_AWAY
        (runFires [(9500, .LOOKING_AWAY)]
          (clearViolationTimeout .LOOKING_AWAY st4)) =
      countType .LOOKING_AWAY st4 ∧
    countType .LOOKING_AWAY
        (runFires [(9500, .LOOKING_AWAY)] (stopMonitoring 8000 st4)) =
      countType .LOOKING_AWAY st4 :=
  C7_canceled_timer_never_fires .LOOKING_AWAY st4 [(9500, .LOOKING_AWAY)]
    8000 (by decide)

/-- Claim C6: for an object whose per-label 30 s cooldown has elapsed, a
lower-cased label containing the word phone yields a critical
PhoneDetected call to addViolation, otherwise one containing book yields a
high BookDetected call, otherwise one containing laptop or tablet yields a
high DeviceDetected call; and in each of these cases the label's cooldown
timestamp is set to the current instant.  No hypothesis constrains the
violation-type cooldown ledger, so the label stamp is recorded even when
the type-level cooldown makes the addViolation call itself a no-op. -/
theorem C6_processObject_classification (now : Int) (obj : ObjectResult)
    (s : ProctoringState)
    (hcd : now - (alistLookup s.objectCooldowns (strToLower obj.object)).getD 0 >
      30000) :
    (strIncludes (strToLower obj.object) "phone" = true →
      (processObject now obj s).sessionData =
        (addViolation now .PHONE_DETECTED (phoneDescription obj.confidence)
          .critical s).sessionData ∧
      alistLookup (processObject now obj s).objectCooldowns
        (strToLower obj.object) = some now) ∧
    (strIncludes (strToLower obj.object) "phone" = false →
      strIncludes (strToLower obj.object) "book" = true →
      (processObject now obj s).sessionData =
        (addViolation now .BOOK_DETECTED (bookDescription obj.confidence)
          .high s).sessionData ∧
      alistLookup (processObject now obj s).objectCooldowns
        (strToLower obj.object) = some now) ∧
    (strIncludes (strToLower obj.object) "phone" = false →
      strIncludes (strToLower obj.object) "book" = false →
      (strIncludes (strToLower obj.object) "laptop" ||
        strIncludes (strToLower obj.object) "tablet") = true →
      (processObject now obj s).sessionData =
        (addViolation now .DEVICE_DETECTED (deviceDescription obj.object)
          .high s).sessionData ∧
      alistLookup (processObject now obj s).objectCooldowns
        (strToLower obj.object) = some now) := by
  simp only [processObject]
  rw [if_pos hcd]
  refine ⟨?_, ?_, ?_⟩
  · intro hp
    rw [if_pos hp]
    exact ⟨rfl, alistLookup_set_self _ _ _⟩
  · intro hp hb
    rw [if_neg (by simp [hp]), if_pos hb]
    exact ⟨rfl, alistLookup_set_self _ _ _⟩
  · intro hp hb hd
    rw [if_neg (by simp [hp]), if_neg (by simp [hb]), if_pos hd]
    exact ⟨rfl, alistLookup_set_self _ _ _⟩

/-- The cell phone detection of the witness scenarios. -/
def objPhone : ObjectResult := { object := "cell phone", confidence := 55 }

/-- Witness for claim C6: a cell phone detected at instant 40000 with an
empty object-cooldown ledger triggers the critical PhoneDetected path and
stamps the label cooldown. -/
theorem C6_processObject_classification_witness :
    (processObject 40000 objPhone st3).sessionData =
      (addViolation 40000 .PHONE_DETECTED (phoneDescription objPhone.confidence)
        .critical st3).sessionData ∧
    alistLookup (processObject 40000 objPhone st3).objectCooldowns
      (strToLower objPhone.object) = some 40000 :=
  (C6_processObject_classification 40000 objPhone st3 (by decide)).1
    (by decide)

/-- Claim C10: a detected object whose lowercased label contains none of
phone, book, laptop or tablet leaves the whole state untouched — no
violation and no per-label cooldown stamp — even though the detection
adapter's allow-list passes such labels (mouse, keyboard, remote,
scissors) through its filter; such objects still appear in the
objectsDetected field of the monitoring status. -/
theorem C10_unmatched_objects_inert (now : Int) (obj : ObjectResult)
    (s : ProctoringState) (objs : List ObjectResult) (hasFace : Bool)
    (st : MonitoringStatus)
    (h1 : strIncludes (strToLower obj.object) "phone" = false)
    (h2 : strIncludes (strToLower obj.object) "book" = false)
    (h3 : strIncludes (strToLower obj.object) "laptop" = false)
    (h4 : strIncludes (strToLower obj.object) "tablet" = false) :
    processObject now obj s = s ∧
    (obj ∈ objs →
      obj.object ∈ (updateMonitoringStatus hasFace objs st).objectsDetected) ∧
    passesObjectFilter "mouse" 50 = true ∧
    passesObjectFilter "keyboard" 72 = true ∧
    passesObjectFilter "remote" 45 = true ∧
    passesObjectFilter "scissors" 41 = true := by
  refine ⟨?_, ?_, by decide, by decide, by decide, by decide⟩
  · simp only [processObject]
    split
    · rw [if_neg (by simp [h1]), if_neg (by simp [h2]),
        if_neg (by simp [h3, h4])]
    · rfl
  · intro hmem
    simp only [updateMonitoringStatus]
    exact List.mem_map.mpr ⟨obj, hmem, rfl⟩

/-- The mouse detection of the witness scenarios. -/
def objMouse : ObjectResult := { object := "mouse", confidence := 50 }

/-- Witness for claim C10: a detected mouse passes the adapter filter and
shows up in objectsDetected but leaves the proctoring state unchanged. -/
theorem C10_unmatched_objects_inert_witness :
    processObject 40000 objMouse st3 = st3 ∧
    objMouse.object ∈
      (updateMonitoringStatus true [objMouse] ms0).objectsDetected ∧
    passesObjectFilter "mouse" 50 = true :=
  ⟨(C10_unmatched_objects_inert 40000 objMouse st3 [objMouse] true ms0
      (by decide) (by decide) (by decide) (by decide)).1,
    (C10_unmatched_objects_inert 40000 objMouse st3 [objMouse] true ms0
      (by decide) (by decide) (by decide) (by decide)).2.1 (by decide),
    (C10_unmatched_objects_inert 40000 objMouse st3 [objMouse] true ms0
      (by decide) (by decide) (by decide) (by decide)).2.2.1⟩

end Proctoring
